import Mathlib

/-!
# Verification of `pytest-ansible-units` (`src/pytest_ansible_units/__init__.py`)

A shallow embedding of the single Python module of the repository.

Modelling conventions:

* A filesystem path is a `List String` of segments below the root, so the
  Python `Path("/repo/galaxy.yml")` is `["repo", "galaxy.yml"]` and
  `str(p)` is `pathStr p`.  `p.parts[-4:]` is `lastN 4 p` and
  `p.parents[2]` is `p.take (p.length - 3)`.
* The filesystem is a record of regular files (with their parsed YAML
  content), directories and symbolic links.  Only `galaxy.yml` contents
  are ever read, so file contents are stored already parsed as a
  `YamlValue`; `yaml.safe_load` of an empty file is `YamlValue.null`.
* The mutable interpreter state (`sys.path`, `os.environ`, the filesystem,
  and the record of `_AnsibleCollectionFinder(...)._install()` calls) is a
  `SysState`.  `os.environ` is an association list used only through
  lookup and update.
* The module-level flags `HAS_ANSIBLE`, `HAS_YAML`, `HAS_COLLECTION_FINDER`
  (set by the `try: import ...` blocks) and `os.pathsep` are parameters;
  `os.pathsep` is a single character (`:` on POSIX, `;` on Windows), so it
  is a `Char`, and `s.split(os.pathsep)` / `os.pathsep.join(paths)` are
  `pySplit` / `pyJoin`.
* Python exceptions are values of `PyError`; a fallible operation returns
  `Except`.  Operations that may raise after having mutated state return
  `Except (PyError × SysState) SysState`, the error carrying the state at
  the moment the exception escapes.
-/

namespace PytestAnsibleUnits

/-- The YAML documents relevant to `galaxy.yml` handling: the result of
`yaml.safe_load` is `None` (empty file), a scalar string, a list, or a
mapping; the metadata the plugin reads (`namespace`, `name`) are string
valued, so mapping entries carry string values. -/
inductive YamlValue where
  | null
  | ystr (s : String)
  | ylist (xs : List String)
  | ymap (entries : List (String × String))
deriving DecidableEq

/-- The Python exceptions that the module can raise or catch. -/
inductive PyError where
  | fileNotFoundError
  | keyError (k : String)
  | typeError
  | nameError (n : String)
deriving DecidableEq

/-- Argument of an `_AnsibleCollectionFinder(paths=...)` construction:
`inject` passes a `list` of strings, `inject_only` passes a plain string. -/
inductive FinderPaths where
  | ofList (ps : List String)
  | ofStr (s : String)
deriving DecidableEq

/-- The filesystem: regular files with parsed YAML contents, directories,
and symbolic links `(link location, target)`. -/
structure FSState where
  files : List (List String × YamlValue)
  dirs : List (List String)
  symlinks : List (List String × List String)
deriving DecidableEq

/-- The interpreter state touched by the module: `sys.path`, `os.environ`,
the filesystem, and the log of finder installations. -/
structure SysState where
  sysPath : List String
  env : List (String × String)
  fs : FSState
  finderInstalls : List FinderPaths
deriving DecidableEq

/-- `str(p)` for an absolute path given by its segments. -/
def pathStr (p : List String) : String :=
  "/" ++ String.intercalate "/" p

/-- Split a character list at every occurrence of `sep`; the result is
never empty and keeps empty groups, like Python `str.split(sep)`. -/
def splitChars (sep : Char) : List Char → List (List Char)
  | [] => [[]]
  | c :: rest =>
    match splitChars sep rest with
    | [] => [[]]
    | g :: gs => if c = sep then [] :: g :: gs else (c :: g) :: gs

/-- Python `s.split(sep)` for a one-character separator `sep`:
`"".split(sep) = [""]`, and empty segments are kept. -/
def pySplit (s : String) (sep : Char) : List String :=
  (splitChars sep s.data).map List.asString

/-- Python `sep.join(paths)` for a one-character separator `sep`. -/
def pyJoin (sep : Char) (paths : List String) : String :=
  String.intercalate sep.toString paths

/-- `p.parts[-n:]`: the last `n` segments (all of them when `p` is shorter). -/
def lastN (n : Nat) (l : List String) : List String :=
  l.drop (l.length - n)

/-- `dict`-style update of `os.environ`: the new binding shadows any old one. -/
def envSet (env : List (String × String)) (k v : String) :
    List (String × String) :=
  (k, v) :: env.filter (fun kv => kv.1 ≠ k)

/-- Content of the regular file at `p`, if `p` is a regular file. -/
def lookupFile (fs : FSState) (p : List String) : Option YamlValue :=
  fs.files.lookup p

/-- The names `n` such that `p ++ [n]` occurs in `paths`. -/
def childrenOf (paths : List (List String)) (p : List String) : List String :=
  paths.filterMap fun q => if q.dropLast = p then q.getLast? else none

/-- `p.iterdir()`: the names of the direct children of `p` (files,
directories and symlinks), each listed once. -/
def FSState.childNames (fs : FSState) (p : List String) : List String :=
  (childrenOf (fs.files.map Prod.fst) p ++ childrenOf fs.dirs p ++
    childrenOf (fs.symlinks.map Prod.fst) p).dedup

/-- `os.makedirs(p, exist_ok=True)`: create every missing directory on the
way down to `p`. -/
def FSState.makedirs (fs : FSState) (p : List String) : FSState :=
  { fs with
    dirs := fs.dirs ++
      (((List.range p.length).map fun i => p.take (i + 1)).filter
        fun q => q ∉ fs.dirs) }

/-- `galaxy_info[key]` (Python subscript): on a mapping, the value or
`KeyError`; on `None`, a string or a list, `TypeError`. -/
def YamlValue.getItem : YamlValue → String → Except PyError String
  | .ymap entries, k =>
    match entries.lookup k with
    | some v => .ok v
    | none => .error (.keyError k)
  | _, _ => .error .typeError

/-- `get_collection_name` (lines 72–98): open `start_path / "galaxy.yml"`
(a missing file means `FileNotFoundError`, caught, giving `(None, None)`),
then read the `namespace` and `name` keys (`KeyError` caught, giving
`(None, None)`; any other exception, such as the `TypeError` raised when
the document is not a mapping, escapes). -/
def get_collection_name (fs : FSState) (start_path : List String) :
    Except PyError (Option String × Option String) :=
  match lookupFile fs (start_path ++ ["galaxy.yml"]) with
  | none => .ok (none, none)
  | some galaxy_info =>
    match galaxy_info.getItem "namespace" with
    | .error (.keyError _) => .ok (none, none)
    | .error e => .error e
    | .ok ns_val =>
      match galaxy_info.getItem "name" with
      | .error (.keyError _) => .ok (none, none)
      | .error e => .error e
      | .ok name_val => .ok (some ns_val, some name_val)

/-- Lines 127–145 of `inject`: decide the collections directory and, when
`start_path` is not already inside a collections tree and the collection
directory does not exist yet, create it with `os.makedirs` and then
symlink every entry of `start_path.iterdir()` except the one named
`collections` into it.  Returns the new filesystem and `collections_dir`.
The loop over `iterdir` runs after `makedirs`, so the children are those
of the updated filesystem. -/
def ensure_tree (fs : FSState) (start_path : List String)
    (ns nm : String) : FSState × List String :=
  if lastN 4 start_path = ["collections", "ansible_collections", ns, nm] then
    (fs, start_path.take (start_path.length - 3))
  else
    let collections_dir := start_path ++ ["collections"]
    let name_dir := collections_dir ++ ["ansible_collections", ns, nm]
    if name_dir ∈ fs.dirs then
      (fs, collections_dir)
    else
      let fs1 := fs.makedirs name_dir
      let fs2 :=
        { fs1 with
          symlinks := fs1.symlinks ++
            ((fs1.childNames start_path).filter
              (fun entry => entry ≠ "collections")).map
              fun entry => (name_dir ++ [entry], start_path ++ [entry]) }
      (fs2, collections_dir)

/-- Lines 151–170 of `inject`: build `paths = [str(collections_dir),
"~/.ansible/collections"]`, install the collection finder with that list
when available, push `str(collections_dir)` onto the front of `sys.path`,
and set `ANSIBLE_COLLECTIONS_PATHS` to the paths joined by `os.pathsep`. -/
def publish (hasFinder : Bool) (pathsep : Char) (st : SysState)
    (collections_dir : List String) : SysState :=
  let paths := [pathStr collections_dir, "~/.ansible/collections"]
  let st1 :=
    if hasFinder then
      { st with finderInstalls := st.finderInstalls ++ [FinderPaths.ofList paths] }
    else st
  let st2 := { st1 with sysPath := pathStr collections_dir :: st1.sysPath }
  { st2 with
    env := envSet st2.env "ANSIBLE_COLLECTIONS_PATHS" (pyJoin pathsep paths) }

/-- Lines 112–170 of `inject`: the body that follows the `--inject-only`
option check — the dependency checks, `get_collection_name`, the early
return on an unresolved identity, the tree step and the publishing step. -/
def inject_after_option_check (hasAnsible hasYaml hasFinder : Bool)
    (pathsep : Char) (st : SysState) (start_path : List String) :
    Except (PyError × SysState) SysState :=
  if !hasAnsible then .ok st
  else if !hasYaml then .ok st
  else
    match get_collection_name st.fs start_path with
    | .error e => .error (e, st)
    | .ok (ns?, nm?) =>
      match ns?, nm? with
      | some ns, some nm =>
        let r := ensure_tree st.fs start_path ns nm
        .ok (publish hasFinder pathsep { st with fs := r.1 } r.2)
      | _, _ => .ok st

/-- `inject` (lines 101–170).  Its first statement is
`if session.config.getoption("--inject-only"):`, but `session` is not a
name defined anywhere in the module (nor a parameter of `inject`), so
evaluating it raises `NameError: name 'session' is not defined` before any
of the code modelled by `inject_after_option_check` can run; the error
carries the caller's state untouched. -/
def inject (hasAnsible hasYaml hasFinder : Bool) (pathsep : Char)
    (st : SysState) (start_path : List String) :
    Except (PyError × SysState) SysState :=
  Except.error (PyError.nameError "session", st)

/-- `inject_only` (lines 173–183): read `ANSIBLE_COLLECTIONS_PATHS` (empty
default), split it on `os.pathsep`, push each non-empty segment onto the
front of `sys.path` in order, and, when available, install the collection
finder with `paths=env_paths` — the raw string, not the split list. -/
def inject_only (hasFinder : Bool) (pathsep : Char) (st : SysState) :
    SysState :=
  let env_paths := (st.env.lookup "ANSIBLE_COLLECTIONS_PATHS").getD ""
  let st1 := (pySplit env_paths pathsep).foldl
    (fun acc path =>
      if path ≠ "" then { acc with sysPath := path :: acc.sysPath } else acc)
    st
  if hasFinder then
    { st1 with finderInstalls := st1.finderInstalls ++ [FinderPaths.ofStr env_paths] }
  else st1

/-- `logging.CRITICAL`. -/
def CRITICAL : Nat := 50
/-- `logging.ERROR`. -/
def ERROR : Nat := 40
/-- `logging.WARNING`. -/
def WARNING : Nat := 30
/-- `logging.INFO`. -/
def INFO : Nat := 20
/-- `logging.DEBUG`. -/
def DEBUG : Nat := 10

/-- The `log_map` dictionary of `pytest_configure` (lines 59–65), mapping
the pytest verbosity level to a `logging` severity level. -/
def log_map : List (Nat × Nat) :=
  [(0, CRITICAL), (1, ERROR), (2, WARNING), (3, INFO), (4, DEBUG)]

/-! ## Theorems -/

/-- C9: `pytest_configure` maps each pytest verbosity level 0–4 to a
distinct standard severity level — 0 to CRITICAL, 1 to ERROR, 2 to
WARNING, 3 to INFO, 4 to DEBUG — covering all five standard levels. -/
theorem log_map_levels :
    List.lookup 0 log_map = some CRITICAL ∧
    List.lookup 1 log_map = some ERROR ∧
    List.lookup 2 log_map = some WARNING ∧
    List.lookup 3 log_map = some INFO ∧
    List.lookup 4 log_map = some DEBUG ∧
    log_map.map Prod.snd = [CRITICAL, ERROR, WARNING, INFO, DEBUG] ∧
    (log_map.map Prod.snd).Nodup := by decide

/-- C2: every call to `inject` evaluates the undefined name `session`
while checking the `--inject-only` option, so it raises `NameError`
before any dependency check, identity resolution, filesystem mutation,
`sys.path` insertion or environment write: the error carries the caller's
state unchanged and no state is returned. -/
theorem inject_raises_nameError (hasAnsible hasYaml hasFinder : Bool)
    (pathsep : Char) (st : SysState) (start_path : List String) :
    inject hasAnsible hasYaml hasFinder pathsep st start_path =
      .error (.nameError "session", st) := rfl

/-- C1: an anticipated-failure invocation of `inject` (here: both optional
dependencies installed but `galaxy.yml` missing under the start path) does
not return normally; it raises `NameError` on the undefined name
`session`, contradicting the design (spec: anticipated failures are
non-fatal and no exception propagates), so the code is in the wrong. -/
theorem inject_missing_galaxy_still_raises :
    inject true true true ':' ⟨[], [], ⟨[], [["repo"]], []⟩, []⟩ ["repo"] =
      .error (.nameError "session", ⟨[], [], ⟨[], [["repo"]], []⟩, []⟩) := rfl

/-- C10: when `galaxy.yml` exists but its document is not a mapping (an
empty file parsing to `None`, a scalar, or a list), subscripting it with
`"namespace"` raises `TypeError`, which `get_collection_name` does not
catch (it only catches `FileNotFoundError` and `KeyError`), so the call
raises instead of returning `(None, None)`. -/
theorem get_collection_name_nonmapping_raises (fs : FSState)
    (start_path : List String) (v : YamlValue)
    (hv : lookupFile fs (start_path ++ ["galaxy.yml"]) = some v)
    (hnm : ∀ entries, v ≠ YamlValue.ymap entries) :
    get_collection_name fs start_path = .error .typeError := by
  unfold get_collection_name
  rw [hv]
  cases v with
  | ymap entries => exact absurd rfl (hnm entries)
  | null => rfl
  | ystr s => rfl
  | ylist xs => rfl

/-- Witness for C10: a `galaxy.yml` parsing to `None` makes
`get_collection_name` raise `TypeError`. -/
theorem get_collection_name_nonmapping_raises_witness :
    get_collection_name ⟨[(["repo", "galaxy.yml"], YamlValue.null)], [], []⟩
      ["repo"] = .error .typeError :=
  get_collection_name_nonmapping_raises
    ⟨[(["repo", "galaxy.yml"], YamlValue.null)], [], []⟩ ["repo"]
    YamlValue.null rfl (fun _ h => YamlValue.noConfusion h)

/-- C6: after the publishing step of `inject` with collections directory
`d`, the environment variable `ANSIBLE_COLLECTIONS_PATHS` equals `str(d)`
joined with `"~/.ansible/collections"` by `os.pathsep`, and `str(d)` is
the first entry of `sys.path`. -/
theorem publish_env_and_first_entry (hasFinder : Bool) (pathsep : Char)
    (st : SysState) (d : List String) :
    List.lookup "ANSIBLE_COLLECTIONS_PATHS" (publish hasFinder pathsep st d).env =
      some (pyJoin pathsep [pathStr d, "~/.ansible/collections"]) ∧
    (publish hasFinder pathsep st d).sysPath.head? = some (pathStr d) := by
  cases hasFinder <;> simp [publish, envSet, List.lookup]

/-- The `sys.path`-insertion loop of `inject_only`: pushing each non-empty
segment in order leaves the split's non-empty segments reversed in front
of the previous `sys.path` and touches nothing else. -/
theorem foldl_insert_state (l : List String) (st : SysState) :
    l.foldl (fun acc path =>
        if path ≠ "" then { acc with sysPath := path :: acc.sysPath } else acc)
      st =
      { st with sysPath := (l.filter (fun p => p ≠ "")).reverse ++ st.sysPath } := by
  induction l generalizing st with
  | nil => rfl
  | cons a l ih =>
    rw [List.foldl_cons]
    by_cases ha : a = ""
    · have h1 : (if a ≠ "" then { st with sysPath := a :: st.sysPath } else st) =
          st := by
        simp [ha]
      rw [h1, ih]
      simp [List.filter_cons, ha]
    · have h1 : (if a ≠ "" then { st with sysPath := a :: st.sysPath } else st) =
          { st with sysPath := a :: st.sysPath } := by
        simp [ha]
      rw [h1, ih]
      simp [List.filter_cons, ha]

/-- Closed form of `inject_only`. -/
theorem inject_only_eq (hasFinder : Bool) (pathsep : Char) (st : SysState) :
    inject_only hasFinder pathsep st =
      (if hasFinder then
        { st with
          sysPath :=
            ((pySplit ((st.env.lookup "ANSIBLE_COLLECTIONS_PATHS").getD "")
                pathsep).filter (fun p => p ≠ "")).reverse ++ st.sysPath,
          finderInstalls := st.finderInstalls ++
            [FinderPaths.ofStr ((st.env.lookup "ANSIBLE_COLLECTIONS_PATHS").getD "")] }
      else
        { st with
          sysPath :=
            ((pySplit ((st.env.lookup "ANSIBLE_COLLECTIONS_PATHS").getD "")
                pathsep).filter (fun p => p ≠ "")).reverse ++ st.sysPath }) := by
  simp only [inject_only]
  rw [foldl_insert_state]

/-- Counterexample for C7: with `ANSIBLE_COLLECTIONS_PATHS = "/a:/b"` and
prior `sys.path = ["x"]`, `inject_only` leaves `sys.path = ["/b", "/a", "x"]`,
not `["/a", "/b", "x"]` as the claim states. -/
theorem inject_only_order_counterexample :
    (inject_only false ':'
        ⟨["x"], [("ANSIBLE_COLLECTIONS_PATHS", "/a:/b")], ⟨[], [], []⟩, []⟩).sysPath ≠
      ["/a", "/b", "x"] := by decide

/-- C7 (amended): with `ANSIBLE_COLLECTIONS_PATHS = "/a:/b"`,
`inject_only` inserts `/a` and then `/b`, each at position 0, so
`sys.path` afterwards begins with `/b` then `/a` (the reverse of their
order in the variable) followed by the prior entries, and the filesystem
is untouched. -/
theorem inject_only_inserts_reversed (hasFinder : Bool) (st : SysState)
    (h : st.env.lookup "ANSIBLE_COLLECTIONS_PATHS" = some "/a:/b") :
    (inject_only hasFinder ':' st).sysPath = "/b" :: "/a" :: st.sysPath ∧
    (inject_only hasFinder ':' st).fs = st.fs := by
  rw [inject_only_eq, h]
  have hsplit : ((pySplit ((some "/a:/b").getD "") ':').filter
      (fun p => p ≠ "")).reverse = ["/b", "/a"] := by decide
  cases hasFinder
  all_goals refine ⟨?_, rfl⟩
  all_goals show ((pySplit ((some "/a:/b").getD "") ':').filter
      (fun p => p ≠ "")).reverse ++ st.sysPath = "/b" :: "/a" :: st.sysPath
  all_goals rw [hsplit]
  all_goals rfl

/-- Witness for C7 (amended). -/
theorem inject_only_inserts_reversed_witness :
    (inject_only false ':'
        ⟨["x"], [("ANSIBLE_COLLECTIONS_PATHS", "/a:/b")], ⟨[], [], []⟩, []⟩).sysPath =
      ["/b", "/a", "x"] ∧
    (inject_only false ':'
        ⟨["x"], [("ANSIBLE_COLLECTIONS_PATHS", "/a:/b")], ⟨[], [], []⟩, []⟩).fs =
      ⟨[], [], []⟩ :=
  inject_only_inserts_reversed false
    ⟨["x"], [("ANSIBLE_COLLECTIONS_PATHS", "/a:/b")], ⟨[], [], []⟩, []⟩ rfl

/-- Counterexample for C8: with `ANSIBLE_COLLECTIONS_PATHS = "/a:/b"` and
the collection finder available, the finder is not constructed with the
split list `["/a", "/b"]`. -/
theorem inject_only_finder_arg_counterexample :
    (inject_only true ':'
        ⟨["x"], [("ANSIBLE_COLLECTIONS_PATHS", "/a:/b")], ⟨[], [], []⟩, []⟩).finderInstalls ≠
      [FinderPaths.ofList ["/a", "/b"]] := by decide

/-- C8 (amended): when the collection finder is available, `inject_only`
constructs it with the raw `ANSIBLE_COLLECTIONS_PATHS` string (default
`""`), unsplit — not with the list of non-empty segments that were
inserted into `sys.path` — and installs it. -/
theorem inject_only_finder_gets_raw_string (pathsep : Char) (st : SysState) :
    (inject_only true pathsep st).finderInstalls =
      st.finderInstalls ++
        [FinderPaths.ofStr ((st.env.lookup "ANSIBLE_COLLECTIONS_PATHS").getD "")] := by
  rw [inject_only_eq]
  rfl

/-! ### Filesystem lemmas for the tree-ensuring step -/

theorem makedirs_files (fs : FSState) (p : List String) :
    (fs.makedirs p).files = fs.files := rfl

theorem makedirs_symlinks (fs : FSState) (p : List String) :
    (fs.makedirs p).symlinks = fs.symlinks := rfl

theorem mem_childrenOf {paths : List (List String)} {p : List String}
    {n : String} : n ∈ childrenOf paths p ↔ p ++ [n] ∈ paths := by
  unfold childrenOf
  rw [List.mem_filterMap]
  constructor
  · rintro ⟨q, hq, hf⟩
    by_cases hd : q.dropLast = p
    · rw [if_pos hd] at hf
      cases q with
      | nil => simp at hf
      | cons a l =>
        have hne : a :: l ≠ [] := by simp
        rw [List.getLast?_eq_getLast _ hne, Option.some_inj] at hf
        rwa [← hd, ← hf, List.dropLast_append_getLast hne]
    · rw [if_neg hd] at hf
      cases hf
  · intro hmem
    refine ⟨p ++ [n], hmem, ?_⟩
    rw [if_pos (List.dropLast_concat), List.getLast?_concat]

theorem mem_childNames {fs : FSState} {p : List String} {n : String} :
    n ∈ fs.childNames p ↔
      (p ++ [n] ∈ fs.files.map Prod.fst ∨ p ++ [n] ∈ fs.dirs ∨
        p ++ [n] ∈ fs.symlinks.map Prod.fst) := by
  unfold FSState.childNames
  rw [List.mem_dedup, List.mem_append, List.mem_append,
    mem_childrenOf, mem_childrenOf, mem_childrenOf, or_assoc]

theorem mem_makedirs_dirs {fs : FSState} {p q : List String} :
    q ∈ (fs.makedirs p).dirs ↔
      q ∈ fs.dirs ∨ ∃ i, i < p.length ∧ q = p.take (i + 1) := by
  unfold FSState.makedirs
  simp only [List.mem_append, List.mem_filter, List.mem_map, List.mem_range]
  constructor
  · rintro (h | ⟨⟨i, hi, rfl⟩, -⟩)
    · exact .inl h
    · exact .inr ⟨i, hi, rfl⟩
  · rintro (h | ⟨i, hi, rfl⟩)
    · exact .inl h
    · by_cases hq : p.take (i + 1) ∈ fs.dirs
      · exact .inl hq
      · exact .inr ⟨⟨i, hi, rfl⟩, by simpa using hq⟩

/-- The only prefix of `start ++ c :: rest` that is a direct child of
`start` is `start ++ [c]`. -/
theorem take_child_single {start : List String} {c : String}
    {rest : List String} {n : String} {i : Nat}
    (h : start ++ [n] = (start ++ c :: rest).take (i + 1)) : n = c := by
  by_cases hle : i + 1 ≤ start.length
  · have hlen := congrArg List.length h
    simp only [List.length_append, List.length_take, List.length_cons,
      List.length_singleton] at hlen
    omega
  · have hj : i + 1 = start.length + (i + 1 - start.length) := by omega
    rw [hj, List.take_append] at h
    have h2 := List.append_cancel_left h
    obtain ⟨j, hj2⟩ : ∃ j, i + 1 - start.length = j + 1 :=
      ⟨i - start.length, by omega⟩
    rw [hj2, List.take_succ_cons] at h2
    injection h2

/-- `makedirs` of a path strictly below `start` adds at most the child
named `c` to `start`'s children; any other name is a child afterwards
iff it was before. -/
theorem mem_childNames_makedirs {fs : FSState} {start : List String}
    {c : String} {rest : List String} {n : String} (hn : n ≠ c) :
    n ∈ (fs.makedirs (start ++ c :: rest)).childNames start ↔
      n ∈ fs.childNames start := by
  rw [mem_childNames, mem_childNames, makedirs_files, makedirs_symlinks,
    mem_makedirs_dirs]
  constructor
  · rintro (h | (h | ⟨i, hi, heq⟩) | h)
    · exact .inl h
    · exact .inr (.inl h)
    · exact absurd (take_child_single heq) hn
    · exact .inr (.inr h)
  · tauto

/-- C4: for a start path already inside a collections tree (its last four
segments are `collections/ansible_collections/<ns>/<nm>`, i.e. it is
`pre ++ [...]`), the tree-ensuring step creates nothing — the filesystem
is returned unchanged — and the collections directory is the ancestor
three levels above the start path (`start_path.parents[2]`, which is
`pre ++ ["collections"]`). -/
theorem ensure_tree_in_tree (fs : FSState) (pre : List String)
    (ns nm : String) :
    ensure_tree fs (pre ++ ["collections", "ansible_collections", ns, nm])
      ns nm = (fs, pre ++ ["collections"]) := by
  have hlast : lastN 4 (pre ++ ["collections", "ansible_collections", ns, nm]) =
      ["collections", "ansible_collections", ns, nm] := by
    unfold lastN
    have h1 : (pre ++ ["collections", "ansible_collections", ns, nm]).length - 4 =
        pre.length := by simp
    rw [h1, List.drop_left]
  have htake : (pre ++ ["collections", "ansible_collections", ns, nm]).take
      ((pre ++ ["collections", "ansible_collections", ns, nm]).length - 3) =
      pre ++ ["collections"] := by
    have h1 : (pre ++ ["collections", "ansible_collections", ns, nm]).length - 3 =
        pre.length + 1 := by simp
    rw [h1, List.take_append]
    rfl
  unfold ensure_tree
  rw [if_pos hlast, htake]

/-- When the start path is not in a collections tree but the collection
directory already exists, the tree-ensuring step is a no-op. -/
theorem ensure_tree_exists_noop (fs : FSState) (start_path : List String)
    (ns nm : String)
    (hTree : lastN 4 start_path ≠ ["collections", "ansible_collections", ns, nm])
    (hDir : (start_path ++ ["collections"]) ++ ["ansible_collections", ns, nm] ∈
      fs.dirs) :
    ensure_tree fs start_path ns nm = (fs, start_path ++ ["collections"]) := by
  simp only [ensure_tree]
  rw [if_neg hTree, if_pos hDir]

/-- C3: for a start path whose `galaxy.yml` is absent, or parses to a
mapping lacking the `namespace` or `name` key, `get_collection_name`
returns `(None, None)`, and `inject`'s body after the option check
returns immediately with the whole state — filesystem included —
unchanged. -/
theorem unresolved_identity_short_circuits (hasAnsible hasYaml hasFinder : Bool)
    (pathsep : Char) (st : SysState) (start_path : List String)
    (h : lookupFile st.fs (start_path ++ ["galaxy.yml"]) = none ∨
      ∃ entries, lookupFile st.fs (start_path ++ ["galaxy.yml"]) =
          some (YamlValue.ymap entries) ∧
        (List.lookup "namespace" entries = none ∨
          List.lookup "name" entries = none)) :
    get_collection_name st.fs start_path = .ok (none, none) ∧
    inject_after_option_check hasAnsible hasYaml hasFinder pathsep st
      start_path = .ok st := by
  have hgcn : get_collection_name st.fs start_path = .ok (none, none) := by
    unfold get_collection_name
    rcases h with h | ⟨entries, he, hk⟩
    · rw [h]
    · rw [he]
      rcases hk with hk | hk
      · simp only [YamlValue.getItem]
        rw [hk]
      · cases hns : List.lookup "namespace" entries with
        | none =>
          simp only [YamlValue.getItem]
          rw [hns]
        | some v =>
          simp only [YamlValue.getItem]
          rw [hns, hk]
  refine ⟨hgcn, ?_⟩
  cases hasAnsible <;> cases hasYaml <;>
    simp [inject_after_option_check, hgcn]

/-- Witness for C3: an empty filesystem has no `galaxy.yml`, so the
identity is unresolved and the state is returned unchanged. -/
theorem unresolved_identity_short_circuits_witness :
    get_collection_name ⟨[], [], []⟩ ["repo"] = .ok (none, none) ∧
    inject_after_option_check true true true ':' ⟨[], [], ⟨[], [], []⟩, []⟩
      ["repo"] = .ok ⟨[], [], ⟨[], [], []⟩, []⟩ :=
  unresolved_identity_short_circuits true true true ':'
    ⟨[], [], ⟨[], [], []⟩, []⟩ ["repo"] (.inl rfl)

/-- C5: for a start path not already in a collections tree, with the
collection directory absent, the tree-ensuring step returns
`start_path / "collections"` as the collections directory, creates the
directory `start_path/collections/ansible_collections/<ns>/<nm>`, touches
no regular file, and records exactly one symlink
`name_dir/<n> -> start_path/<n>` for every top-level entry `n` of
`start_path` other than `collections` (beyond any pre-existing links);
running the step again on the result is a no-op. -/
theorem ensure_tree_creates_and_idempotent (fs : FSState)
    (start_path : List String) (ns nm : String)
    (hTree : lastN 4 start_path ≠ ["collections", "ansible_collections", ns, nm])
    (hDir : start_path ++ ["collections", "ansible_collections", ns, nm] ∉ fs.dirs) :
    (ensure_tree fs start_path ns nm).2 = start_path ++ ["collections"] ∧
    start_path ++ ["collections", "ansible_collections", ns, nm] ∈
      (ensure_tree fs start_path ns nm).1.dirs ∧
    (ensure_tree fs start_path ns nm).1.files = fs.files ∧
    (∀ n : String, n ≠ "collections" →
      ((start_path ++ ["collections", "ansible_collections", ns, nm] ++ [n],
          start_path ++ [n]) ∈ (ensure_tree fs start_path ns nm).1.symlinks ↔
        (n ∈ fs.childNames start_path ∨
          (start_path ++ ["collections", "ansible_collections", ns, nm] ++ [n],
            start_path ++ [n]) ∈ fs.symlinks))) ∧
    ensure_tree (ensure_tree fs start_path ns nm).1 start_path ns nm =
      ((ensure_tree fs start_path ns nm).1, start_path ++ ["collections"]) := by
  have hAB : (start_path ++ ["collections"]) ++ ["ansible_collections", ns, nm] =
      start_path ++ ["collections", "ansible_collections", ns, nm] := by
    simp
  have hDir' : (start_path ++ ["collections"]) ++
      ["ansible_collections", ns, nm] ∉ fs.dirs := by
    rw [hAB]; exact hDir
  have heq : ensure_tree fs start_path ns nm =
      ({ fs.makedirs (start_path ++ ["collections", "ansible_collections", ns, nm]) with
          symlinks := fs.symlinks ++
            (((fs.makedirs (start_path ++
                  ["collections", "ansible_collections", ns, nm])).childNames
                start_path).filter (fun entry => entry ≠ "collections")).map
              fun entry =>
                (start_path ++ ["collections", "ansible_collections", ns, nm] ++ [entry],
                  start_path ++ [entry]) },
        start_path ++ ["collections"]) := by
    simp only [ensure_tree]
    rw [if_neg hTree, if_neg hDir']
    simp [List.append_assoc, makedirs_symlinks, makedirs_files]
  have hmemB : start_path ++ ["collections", "ansible_collections", ns, nm] ∈
      (fs.makedirs (start_path ++
        ["collections", "ansible_collections", ns, nm])).dirs := by
    have hlen : (start_path ++ ["collections", "ansible_collections", ns, nm]).length =
        start_path.length + 4 := by simp
    refine mem_makedirs_dirs.mpr (.inr ⟨start_path.length + 3, by omega, ?_⟩)
    have h1 : start_path.length + 3 + 1 =
        (start_path ++ ["collections", "ansible_collections", ns, nm]).length := by
      omega
    rw [h1, List.take_length]
  refine ⟨?_, ?_, ?_, ?_, ?_⟩
  · rw [heq]
  · rw [heq]; exact hmemB
  · rw [heq]; rfl
  · intro n hn
    rw [heq]
    show ((start_path ++ ["collections", "ansible_collections", ns, nm] ++ [n],
        start_path ++ [n]) ∈
        fs.symlinks ++
          (((fs.makedirs (start_path ++
                ["collections", "ansible_collections", ns, nm])).childNames
              start_path).filter (fun entry => entry ≠ "collections")).map
            (fun entry =>
              (start_path ++ ["collections", "ansible_collections", ns, nm] ++ [entry],
                start_path ++ [entry])) ↔
        (n ∈ fs.childNames start_path ∨
          (start_path ++ ["collections", "ansible_collections", ns, nm] ++ [n],
            start_path ++ [n]) ∈ fs.symlinks))
    rw [List.mem_append]
    have hb : ((start_path ++ ["collections", "ansible_collections", ns, nm] ++ [n],
        start_path ++ [n]) ∈
        (((fs.makedirs (start_path ++
              ["collections", "ansible_collections", ns, nm])).childNames
            start_path).filter (fun entry => entry ≠ "collections")).map
          (fun entry =>
            (start_path ++ ["collections", "ansible_collections", ns, nm] ++ [entry],
              start_path ++ [entry]))) ↔
        n ∈ fs.childNames start_path := by
      rw [List.mem_map]
      constructor
      · rintro ⟨e, he, heq2⟩
        have h1 : start_path ++ [e] = start_path ++ [n] := congrArg Prod.snd heq2
        have h2 : e = n := by
          have h3 := List.append_cancel_left h1
          injection h3 with h4 h5
        subst h2
        rw [List.mem_filter] at he
        exact (mem_childNames_makedirs hn).mp he.1
      · intro hmem
        refine ⟨n, ?_, rfl⟩
        rw [List.mem_filter]
        refine ⟨(mem_childNames_makedirs hn).mpr hmem, ?_⟩
        simpa using hn
    rw [hb]
    exact or_comm
  · rw [heq]
    refine ensure_tree_exists_noop _ _ _ _ hTree ?_
    rw [hAB]
    exact hmemB

/-- Witness for C5: starting from an empty filesystem under `/repo`. -/
theorem ensure_tree_creates_and_idempotent_witness :
    (ensure_tree ⟨[], [], []⟩ ["repo"] "foo" "bar").2 =
      ["repo"] ++ ["collections"] ∧
    ["repo"] ++ ["collections", "ansible_collections", "foo", "bar"] ∈
      (ensure_tree ⟨[], [], []⟩ ["repo"] "foo" "bar").1.dirs ∧
    (ensure_tree ⟨[], [], []⟩ ["repo"] "foo" "bar").1.files = [] ∧
    ensure_tree (ensure_tree ⟨[], [], []⟩ ["repo"] "foo" "bar").1
      ["repo"] "foo" "bar" =
      ((ensure_tree ⟨[], [], []⟩ ["repo"] "foo" "bar").1,
        ["repo"] ++ ["collections"]) := by
  obtain ⟨h1, h2, h3, h4, h5⟩ :=
    ensure_tree_creates_and_idempotent ⟨[], [], []⟩ ["repo"] "foo" "bar"
      (by decide) (by decide)
  exact ⟨h1, h2, h3, h5⟩

end PytestAnsibleUnits
